import Mathlib

/-!
# Verification of the x402-rag paywalled retrieval gateway

Shallow embedding of the x402-rag server core (`src/x402_rag`) and client SDK
(`x402-rag-sdk`), with theorems settling the specification claims about
chunk identity, price allocation, the purchase ledger, the payment state
machine, authentication, and retrieval clamping.

Machine integers are modelled as `Nat`/`Int` with explicit reductions
modulo `2^32` where the hash algorithms require 32-bit wraparound.
-/

namespace X402Rag

/-! ## Byte-level primitives

UTF-8 encoding and 32-bit word operations used by the hash functions.
Bytes are `Nat` values in `[0, 256)`; 32-bit words are `Nat` values
reduced modulo `2^32` after every arithmetic step.
-/

/-- UTF-8 encoding of a single Unicode code point (as in Python `str.encode()`). -/
def utf8Char (c : Nat) : List Nat :=
  if c < 128 then [c]
  else if c < 2048 then [192 + c / 64, 128 + c % 64]
  else if c < 65536 then
    [224 + c / 4096, 128 + (c / 64) % 64, 128 + c % 64]
  else
    [240 + c / 262144, 128 + (c / 4096) % 64, 128 + (c / 64) % 64, 128 + c % 64]

/-- UTF-8 bytes of a string (Python `s.encode("utf-8")`). -/
def utf8Bytes (s : String) : List Nat :=
  s.toList.flatMap (fun c => utf8Char c.toNat)

/-- Rotate a 32-bit word left by `n` positions. -/
def rotl32 (x n : Nat) : Nat :=
  ((x <<< n) ||| (x >>> (32 - n))) % 2 ^ 32

/-- Rotate a 32-bit word right by `n` positions. -/
def rotr32 (x n : Nat) : Nat :=
  ((x >>> n) ||| (x <<< (32 - n))) % 2 ^ 32

/-- Bitwise complement within 32 bits. -/
def not32 (x : Nat) : Nat := x ^^^ 4294967295

/-- Big-endian 32-bit word number `i` of a byte list. -/
def beWord (bs : List Nat) (i : Nat) : Nat :=
  bs.getD (4 * i) 0 * 16777216 + bs.getD (4 * i + 1) 0 * 65536 +
    bs.getD (4 * i + 2) 0 * 256 + bs.getD (4 * i + 3) 0

/-- Big-endian bytes of a 32-bit word. -/
def word32BE (w : Nat) : List Nat :=
  [w / 16777216 % 256, w / 65536 % 256, w / 256 % 256, w % 256]

/-- Merkle–Damgård padding shared by SHA-1 and SHA-256: append the byte 128 (0x80),
then zeros up to 56 bytes mod 64, then the bit length as 8 big-endian bytes. -/
def padBytes (msg : List Nat) : List Nat :=
  let len := msg.length
  let bitLen := 8 * len
  let padZeros := (119 - len % 64) % 64
  msg ++ [128] ++ List.replicate padZeros 0 ++
    (List.range 8).map (fun i => (bitLen >>> (8 * (7 - i))) % 256)

/-! ## SHA-1 (as used by `hashlib.sha1` in `services/utils.py`) -/

/-- SHA-1 message schedule: 80 expanded 32-bit words of one 64-byte block. -/
def sha1Schedule (block : List Nat) : List Nat :=
  (List.range 80).foldl
    (fun w t =>
      if t < 16 then w ++ [beWord block t]
      else
        w ++ [rotl32 ((w.getD (t - 3) 0) ^^^ (w.getD (t - 8) 0) ^^^
          (w.getD (t - 14) 0) ^^^ (w.getD (t - 16) 0)) 1])
    []

/-- One SHA-1 round function application. -/
def sha1Round (t : Nat) (s : Nat × Nat × Nat × Nat × Nat) (wt : Nat) :
    Nat × Nat × Nat × Nat × Nat :=
  let (a, b, c, d, e) := s
  let f :=
    if t < 20 then (b &&& c) ||| (not32 b &&& d)
    else if t < 40 then b ^^^ c ^^^ d
    else if t < 60 then (b &&& c) ||| (b &&& d) ||| (c &&& d)
    else b ^^^ c ^^^ d
  let k :=
    if t < 20 then 1518500249
    else if t < 40 then 1859775393
    else if t < 60 then 2400959708
    else 3395469782
  let temp := (rotl32 a 5 + f + e + k + wt) % 2 ^ 32
  (temp, a, rotl32 b 30, c, d)

/-- Compress one 64-byte block into the SHA-1 chaining state. -/
def sha1Block (h : List Nat) (block : List Nat) : List Nat :=
  let w := sha1Schedule block
  let s0 := (h.getD 0 0, h.getD 1 0, h.getD 2 0, h.getD 3 0, h.getD 4 0)
  let s := (List.range 80).foldl (fun s t => sha1Round t s (w.getD t 0)) s0
  let (a, b, c, d, e) := s
  [(h.getD 0 0 + a) % 2 ^ 32, (h.getD 1 0 + b) % 2 ^ 32, (h.getD 2 0 + c) % 2 ^ 32,
    (h.getD 3 0 + d) % 2 ^ 32, (h.getD 4 0 + e) % 2 ^ 32]

/-- SHA-1 digest (20 bytes) of a byte message. -/
def sha1Bytes (msg : List Nat) : List Nat :=
  let p := padBytes msg
  let nb := p.length / 64
  let hInit := [1732584193, 4023233417, 2562383102, 271733878, 3285377520]
  let h := (List.range nb).foldl (fun h b => sha1Block h ((p.drop (64 * b)).take 64)) hInit
  h.flatMap word32BE

/-! ## SHA-256 (as used by `hashlib.sha256` in `services/utils.py`) -/

/-- Round-constant table of SHA-256 (fractional cube roots of the first 64 primes). -/
def sha256K : List Nat :=
  [1116352408, 1899447441, 3049323471, 3921009573, 961987163, 1508970993,
   2453635748, 2870763221, 3624381080, 310598401, 607225278, 1426881987,
   1925078388, 2162078206, 2614888103, 3248222580, 3835390401, 4022224774,
   264347078, 604807628, 770255983, 1249150122, 1555081692, 1996064986,
   2554220882, 2821834349, 2952996808, 3210313671, 3336571891, 3584528711,
   113926993, 338241895, 666307205, 773529912, 1294757372, 1396182291,
   1695183700, 1986661051, 2177026350, 2456956037, 2730485921, 2820302411,
   3259730800, 3345764771, 3516065817, 3600352804, 4094571909, 275423344,
   430227734, 506948616, 659060556, 883997877, 958139571, 1322822218,
   1537002063, 1747873779, 1955562222, 2024104815, 2227730452, 2361852424,
   2428436474, 2756734187, 3204031479, 3329325298]

/-- SHA-256 message schedule: 64 expanded words of one 64-byte block. -/
def sha256Schedule (block : List Nat) : List Nat :=
  (List.range 64).foldl
    (fun w t =>
      if t < 16 then w ++ [beWord block t]
      else
        let s0 := rotr32 (w.getD (t - 15) 0) 7 ^^^ rotr32 (w.getD (t - 15) 0) 18 ^^^
          (w.getD (t - 15) 0 >>> 3)
        let s1 := rotr32 (w.getD (t - 2) 0) 17 ^^^ rotr32 (w.getD (t - 2) 0) 19 ^^^
          (w.getD (t - 2) 0 >>> 10)
        w ++ [(w.getD (t - 16) 0 + s0 + w.getD (t - 7) 0 + s1) % 2 ^ 32])
    []

/-- One SHA-256 round on the 8-word state. -/
def sha256Round (s : List Nat) (kt wt : Nat) : List Nat :=
  let a := s.getD 0 0
  let b := s.getD 1 0
  let c := s.getD 2 0
  let d := s.getD 3 0
  let e := s.getD 4 0
  let f := s.getD 5 0
  let g := s.getD 6 0
  let h := s.getD 7 0
  let bigS1 := rotr32 e 6 ^^^ rotr32 e 11 ^^^ rotr32 e 25
  let ch := (e &&& f) ^^^ (not32 e &&& g)
  let t1 := (h + bigS1 + ch + kt + wt) % 2 ^ 32
  let bigS0 := rotr32 a 2 ^^^ rotr32 a 13 ^^^ rotr32 a 22
  let maj := (a &&& b) ^^^ (a &&& c) ^^^ (b &&& c)
  let t2 := (bigS0 + maj) % 2 ^ 32
  [(t1 + t2) % 2 ^ 32, a, b, c, (d + t1) % 2 ^ 32, e, f, g]

/-- Compress one 64-byte block into the SHA-256 chaining state. -/
def sha256Block (h : List Nat) (block : List Nat) : List Nat :=
  let w := sha256Schedule block
  let s := (List.range 64).foldl
    (fun s t => sha256Round s (sha256K.getD t 0) (w.getD t 0)) h
  (List.range 8).map (fun i => (h.getD i 0 + s.getD i 0) % 2 ^ 32)

/-- SHA-256 digest (32 bytes) of a byte message. -/
def sha256Bytes (msg : List Nat) : List Nat :=
  let p := padBytes msg
  let nb := p.length / 64
  let hInit := [1779033703, 3144134277, 1013904242, 2773480762,
    1359893119, 2600822924, 528734635, 1541459225]
  let h := (List.range nb).foldl (fun h b => sha256Block h ((p.drop (64 * b)).take 64)) hInit
  h.flatMap word32BE

/-! ## Hex encoding and the chunk-identity scheme (`services/utils.py`) -/

/-- Lowercase hexadecimal digit. -/
def hexChar (n : Nat) : Char :=
  if n < 10 then Char.ofNat (48 + n) else Char.ofNat (87 + n)

/-- Lowercase hex encoding of a byte list (Python `.hexdigest()`). -/
def bytesToHex (bs : List Nat) : String :=
  String.mk (bs.flatMap (fun b => [hexChar (b / 16), hexChar (b % 16)]))

/-- `hashlib.sha1(s.encode()).hexdigest()`. -/
def sha1HexOfString (s : String) : String := bytesToHex (sha1Bytes (utf8Bytes s))

/-- Source `sha256_hex`: `hashlib.sha256(s.encode("utf-8")).hexdigest()`. -/
def sha256_hex (s : String) : String := bytesToHex (sha256Bytes (utf8Bytes s))

/-- Canonical string form of a UUID given by 32 lowercase hex characters:
`str(uuid.UUID(h))` inserts dashes in the 8-4-4-4-12 pattern. -/
def uuidFrom32Hex (h : String) : String :=
  let cs := h.toList
  String.mk (cs.take 8) ++ "-" ++ String.mk ((cs.drop 8).take 4) ++ "-" ++
    String.mk ((cs.drop 12).take 4) ++ "-" ++ String.mk ((cs.drop 16).take 4) ++ "-" ++
    String.mk (cs.drop 20)

/-- Python string slice `s[:n]`. -/
def strTake (s : String) (n : Nat) : String := String.mk (s.toList.take n)

/-- Source `stable_chunk_uuid`: deterministic UUID from `(doc_id, chunk_idx)` via
`hashlib.sha1(f"{doc_id}:{chunk_idx}".encode()).hexdigest()[:32]` parsed as a UUID. -/
def stable_chunk_uuid (doc_id : String) (chunk_idx : Nat) : String :=
  uuidFrom32Hex (strTake (sha1HexOfString (doc_id ++ ":" ++ toString chunk_idx)) 32)

/-- Source `build_doc_id`: doc id is the SHA-256 hex of the canonical source string. -/
def build_doc_id (source : String) : String := sha256_hex source

/-! ## Authentication (`server/auth.py` and sdk `auth.py`)

The Ed25519 layer is modelled as an ideal deterministic signature scheme:
a signature is the pair of the signer's public key (its base58 address
string) and the exact signed bytes, and verification succeeds iff the
signature is the signer's signature over exactly the verified bytes.
This idealises `nacl.signing`/`solders`: Ed25519 is deterministic, and
existential unforgeability is taken as given for the external library.

Timestamps are modelled as integer seconds (UTC, second precision): the
wire `issuedAt` string is second-precision ISO-8601, and the server's
pydantic parse followed by `iso_utc` re-rendering is the identity at that
precision, so client and server agree on one canonical rendering, which
both source files implement with the same `iso_utc` function. -/

/-- Ideal signature: the signer's key together with the signed bytes. -/
structure Sig where
  signer : String
  message : String
  deriving DecidableEq, Repr

/-- `keypair.sign_message(to_sign)` in the ideal model. -/
def signMessage (keypair msg : String) : Sig := ⟨keypair, msg⟩

/-- `VerifyKey(bytes(pubkey)).verify(canonical, sig)` in the ideal model:
true iff `sig` is `address`'s signature over exactly `msg`. -/
def edVerify (address msg : String) (s : Sig) : Bool :=
  s.signer == address && s.message == msg

/-- The parsed `msg` object of the wire payload (`AuthMessage`):
`v : int`, `uri : str`, `issuedAt` normalized to UTC seconds. -/
structure AuthMsg where
  v : Int
  uri : String
  issuedAt : Int
  deriving DecidableEq, Repr

/-- First canonical line, `CANON_PREFIX` in both source files. -/
def canonFirstLine : String := "solana-auth-v1"

/-- Rendering of `iso_utc(issued_at)` in the canonical form. Both client and
server render through the one shared `iso_utc`; the claims depend only on
that sharing and on second-precision normalization, which the integer-seconds
model captures, not on the ISO-8601 calendar text itself. -/
def isoUtcRender (t : Int) : String := toString t ++ "Z"

/-- Server `AuthMessage.canonical_string`: LF-joined canonical lines. -/
def canonical_string (m : AuthMsg) : String :=
  canonFirstLine ++ "\n" ++
    "version: " ++ toString m.v ++ "\n" ++
    "uri: " ++ m.uri ++ "\n" ++
    "issued-at: " ++ isoUtcRender m.issuedAt

/-- Client (sdk `auth.py`) `AuthMessage.canonical_string`; the sdk carries a
textually identical copy of the server definition. -/
def clientCanonicalString (m : AuthMsg) : String :=
  canonFirstLine ++ "\n" ++
    "version: " ++ toString m.v ++ "\n" ++
    "uri: " ++ m.uri ++ "\n" ++
    "issued-at: " ++ isoUtcRender m.issuedAt

/-- Wire payload `{ address, msg, sig }` after base64url/JSON decoding.
`msgFields = none` models `AuthMessage(**wire.msg)` failing validation. -/
structure WireP where
  address : String
  msgFields : Option AuthMsg
  sig : Sig
  deriving DecidableEq, Repr

/-- The `Authorization` header after transport decoding: wrong scheme word,
an undecodable payload, or a decoded wire payload. -/
inductive AuthHeader where
  | wrongScheme
  | badPayload
  | payload (w : WireP)
  deriving DecidableEq, Repr

/-- Source `verify_solana_authorization_header` (`server/auth.py`).
`validAddress` models `solders.Pubkey.from_string` succeeding on the
address (base58 decoding to 32 bytes). Returns the wallet address, or the
`AuthError` message. -/
def verify_solana_authorization_header
    (validAddress : String → Bool) (header : AuthHeader) (request_uri : String)
    (now max_ttl_seconds clock_skew_seconds : Int) : Except String String :=
  match header with
  | .wrongScheme => .error "Unsupported scheme"
  | .badPayload => .error "Bad auth payload"
  | .payload w =>
    match w.msgFields with
    | none => .error "Bad msg"
    | some msg =>
      if msg.uri ≠ request_uri then .error "URI mismatch"
      else if msg.issuedAt - now > clock_skew_seconds then .error "issued_at is in the future"
      else if now - msg.issuedAt > max_ttl_seconds + clock_skew_seconds then .error "message expired"
      else if ¬ validAddress w.address then .error "Invalid address"
      else if edVerify w.address (canonical_string msg) w.sig then .ok w.address
      else .error "Signature verify failed"

/-- Default TTL of the freshness window (seconds), `max_ttl_seconds`. -/
def defaultMaxTtlSeconds : Int := 300

/-- Default tolerated clock skew (seconds), `clock_skew_seconds`. -/
def defaultClockSkewSeconds : Int := 120

/-- Sdk `build_solana_authorization_header`: builds and signs the canonical
message; the keypair is modelled by its public address, and the base64url
JSON envelope by the structured wire payload it decodes to. -/
def build_solana_authorization_header
    (keypair uri : String) (version issuedAt : Int) : AuthHeader :=
  let msg : AuthMsg := ⟨version, uri, issuedAt⟩
  .payload ⟨keypair, some msg, signMessage keypair (clientCanonicalString msg)⟩

/-! ## Price allocation and indexing (`services/base.py`)

Python `float` arithmetic is idealised as exact rational arithmetic (`ℚ`);
`int(x)` on a float is truncation toward zero, `Int.tdiv` on the exact
rational. -/

/-- Python `int(q)` for a non-integer numeric value: truncation toward zero. -/
def pyInt (q : ℚ) : Int := q.num.tdiv q.den

/-- Source line 38: `price_base_units = int(price_usd * (10**usdc_decimals))`. -/
def price_base_units (price_usd : ℚ) (usdc_decimals : Nat) : Int :=
  pyInt (price_usd * (10 : ℚ) ^ usdc_decimals)

/-- Source line 48: per-chunk price
`int((chunk_chars / total_chars) * price_base_units) if total_chars > 0 else 0`. -/
def chunk_price (chunk_chars total_chars : Nat) (priceBase : Int) : Int :=
  if 0 < total_chars then pyInt (((chunk_chars : ℚ) / (total_chars : ℚ)) * (priceBase : ℚ))
  else 0

/-- The allocator applied to the character lengths of all chunks of one
document: each chunk is priced against the shared total character count. -/
def allocatedPrices (chunkLens : List Nat) (priceBase : Int) : List Int :=
  chunkLens.map (fun c => chunk_price c chunkLens.sum priceBase)

/-- Chunk metadata as written by the indexer and stored in the vector store:
`{source, doc_type, doc_id, chunk_id, price}` where the `chunk_id` metadata
field is the 0-based chunk index. -/
structure ChunkMeta where
  source : String
  doc_type : String
  doc_id : String
  chunk_id : Nat
  price : Int
  deriving DecidableEq, Repr

/-- A langchain `Document` as exchanged with the vector store: page content
plus validated chunk metadata. -/
structure Chunk where
  text : String
  metadata : ChunkMeta
  deriving DecidableEq, Repr

/-- Result record of `index_document`. -/
structure IndexedDocument where
  doc_id : String
  source : String
  chunks_count : Nat
  deriving DecidableEq, Repr

/-- Source `BaseIndexService.index_document`. `splitText` models the
`RecursiveCharacterTextSplitter` (external collaborator). Returns `none`
for the bare `return` when splitting yields no chunks; otherwise the
`(chunk_id, document)` records upserted via `aadd_documents` and the
returned `IndexedDocument`.

Faithful to the source's control flow including its slip: after computing
`total_chars` and `price_base_units` from the split chunks, line 40 rebinds
the name `chunks` to a fresh empty list (`chunks: list[Document] = []`),
so line 43's `for i, text in enumerate(chunks)` iterates that empty list,
no record is ever appended, and `chunks_count=len(chunks)` is 0. -/
def index_document (splitText : String → List String)
    (source content : String) (price_usd : ℚ) (doc_type : String)
    (usdc_decimals : Nat) : Option (List (String × Chunk) × IndexedDocument) :=
  let doc_id := build_doc_id source
  let chunks := splitText content
  if chunks = [] then none
  else
    let total_chars := (chunks.map String.length).sum
    let priceBase := price_base_units price_usd usdc_decimals
    -- `chunks: list[Document] = []` — the loop below ranges over this list
    let chunksRebound : List String := []
    let records := chunksRebound.enum.map (fun p =>
      (stable_chunk_uuid doc_id p.1,
        (⟨p.2, ⟨source, doc_type, doc_id, p.1,
          chunk_price p.2.length total_chars priceBase⟩⟩ : Chunk)))
    some (records, { doc_id := doc_id, source := source, chunks_count := chunksRebound.length })

/-- What the source intends (and `doc_index_service.py`/`web_index_service.py`
do for their unpriced variants): build one priced record per split chunk,
with dense indices `0..n-1`. Used to state what the claim expects of
`index_document`. -/
def intendedIndexRecords (splitText : String → List String)
    (source content : String) (price_usd : ℚ) (doc_type : String)
    (usdc_decimals : Nat) : List (String × Chunk) :=
  let doc_id := build_doc_id source
  let chunks := splitText content
  let total_chars := (chunks.map String.length).sum
  let priceBase := price_base_units price_usd usdc_decimals
  chunks.enum.map (fun p =>
    (stable_chunk_uuid doc_id p.1,
      (⟨p.2, ⟨source, doc_type, doc_id, p.1,
        chunk_price p.2.length total_chars priceBase⟩⟩ : Chunk)))

/-! ## Retrieval service (`services/retrieval_service.py`) -/

/-- Source `RetrievalService.search`: clamp `k` to `max_retrieved_chunks`,
then query the vector store (external collaborator, modelled by `store`). -/
def searchRetrieve (store : Int → List Chunk) (k max_retrieved_chunks : Int) : List Chunk :=
  let k := min k max_retrieved_chunks
  store k

/-- Source `RetrievalService.get_chunk_range`, the index arithmetic:
default missing `end_chunk` to `start_chunk`, clamp the inclusive range to
`max_retrieved_chunks`, and enumerate `range(start_chunk, end_chunk + 1)`.
Request fields are validated `ge=0` by `FetchChunksByRangeRequest`. -/
def chunkRangeIndices (start_chunk : Nat) (end_chunk? : Option Nat)
    (max_retrieved_chunks : Int) : List Int :=
  let endC : Int := (end_chunk?.getD start_chunk : Nat)
  let requested_count := endC - start_chunk + 1
  let endC := if requested_count > max_retrieved_chunks
    then start_chunk + max_retrieved_chunks - 1 else endC
  (List.range (endC + 1 - start_chunk).toNat).map (fun i => ((start_chunk + i : Nat) : Int))

/-- The stable chunk ids `get_chunk_range` asks the vector store for
(`aget_by_ids`; missing ids are silently omitted by the store). -/
def get_chunk_range_ids (doc_id : String) (start_chunk : Nat) (end_chunk? : Option Nat)
    (max_retrieved_chunks : Int) : List String :=
  (chunkRangeIndices start_chunk end_chunk? max_retrieved_chunks).map
    (fun i => stable_chunk_uuid doc_id i.toNat)

/-! ## Purchase ledger (`services/purchase_service.py`, `db/schemas.py`)

The `chunk_purchases` table is a set of `(user_address, chunk_id)` rows
with that pair as primary key; `purchased_at` is server-generated and
carries no information the claims touch. The ledger is modelled as the
list of rows; one SQL transaction either commits all its inserts or, on a
primary-key conflict, raises `IntegrityError` and leaves the table
unchanged. -/

/-- The purchase ledger: rows `(user_address, chunk_id)`. -/
abbrev Ledger := List (String × String)

/-- Source `get_paid_chunk_ids`: the subset of `chunk_ids` already owned by
`user_address` (a SQL `SELECT ... WHERE chunk_id IN (...)`, set-valued). -/
def get_paid_chunk_ids (ledger : Ledger) (user_address : String)
    (chunk_ids : List String) : List String :=
  if chunk_ids = [] then []
  else chunk_ids.filter (fun cid => ledger.contains (user_address, cid))

/-- Source `record_purchases`. Despite its inline comment
("Use insert with on_conflict_do_nothing to avoid duplicate key errors"),
the body does plain `session.add(...)` for each id and one `commit()`: a
row whose `(user_address, chunk_id)` key already exists in the table — or
appears twice in the batch — makes the flush raise `IntegrityError` and
roll the transaction back. When `chunk_ids` is empty or x402 is disabled
it returns without touching the database. -/
def record_purchases (enabled : Bool) (ledger : Ledger) (user_address : String)
    (chunk_ids : List String) : Except String Ledger :=
  if chunk_ids = [] then .ok ledger
  else if enabled = false then .ok ledger
  else if chunk_ids.any (fun cid => ledger.contains (user_address, cid))
      || !(decide chunk_ids.Nodup) then
    .error "IntegrityError: duplicate key value violates unique constraint"
  else .ok (ledger ++ chunk_ids.map (fun cid => (user_address, cid)))

/-- Source `filter_unpaid_chunks`: derive each chunk's stable id from its
metadata, look up which the wallet owns, and split into
`(unpaid, paid)` preserving retrieval order. -/
def filter_unpaid_chunks (ledger : Ledger) (user_address : String)
    (chunks : List Chunk) : List Chunk × List Chunk :=
  if chunks = [] then ([], [])
  else
    let chunk_ids := chunks.map (fun c => stable_chunk_uuid c.metadata.doc_id c.metadata.chunk_id)
    let paid_ids := get_paid_chunk_ids ledger user_address chunk_ids
    let zipped := chunks.zip chunk_ids
    ((zipped.filter (fun p => !(paid_ids.contains p.2))).map Prod.fst,
     (zipped.filter (fun p => paid_ids.contains p.2)).map Prod.fst)

/-- Total price of the chunks the wallet has not yet paid for, as summed by
both endpoint handlers over `filter_unpaid_chunks`'s first component. -/
def totalUnpaidPrice (ledger : Ledger) (user_address : String)
    (chunks : List Chunk) : Int :=
  (((filter_unpaid_chunks ledger user_address chunks).1).map
    (fun c => c.metadata.price)).sum

/-! ## x402 payment handler (`server/x402.py`)

The facilitator is an external HTTP service; each of its two calls is
modelled by its outcome, passed in as an `Except` value (`.error e` for a
raised exception rendered as `str(e)`). The `X-PAYMENT` header is modelled
after transport decoding: absent, undecodable, or a decoded payload. The
decoded `PaymentPayload` itself is opaque to every claim; requirement
matching (`x402.common.find_matching_payment_requirements`) is an external
library predicate passed in as a function. -/

/-- The x402 section of the server settings (`core/settings.py`). -/
structure X402SettingsM where
  enabled : Bool
  pay_to_address : String
  network : String
  usdc_address : String
  usdc_decimals : Nat
  fee_payer : String
  deriving DecidableEq, Repr

/-- Decoded `X-PAYMENT` payload, opaque to the claims. -/
structure PaymentPayloadM where
  raw : String
  deriving DecidableEq, Repr

/-- The placeholder payload the disabled-payments branch constructs
(`PaymentPayload(signature="", eip712_payload={})`). -/
def dummyPaymentPayload : PaymentPayloadM := ⟨""⟩

/-- `PaymentRequirements` wire object as built by the server. -/
structure PaymentRequirementsM where
  scheme : String
  network : String
  asset : String
  max_amount_required : Int
  resource : String
  description : String
  mime_type : String
  pay_to : String
  max_timeout_seconds : Nat
  fee_payer : String
  deriving DecidableEq, Repr

/-- Source `create_payment_requirements`. -/
def create_payment_requirements (st : X402SettingsM) (total_price : Int)
    (resource description : String) : PaymentRequirementsM where
  scheme := "exact"
  network := st.network
  asset := st.usdc_address
  max_amount_required := total_price
  resource := resource
  description := description
  mime_type := "application/json"
  pay_to := st.pay_to_address
  max_timeout_seconds := 60
  fee_payer := st.fee_payer

/-- The requirements object of the dummy context built when payments are
disabled (`max_amount_required=0`, empty resource and recipient). -/
def dummyRequirements (st : X402SettingsM) : PaymentRequirementsM where
  scheme := "exact"
  network := st.network
  asset := st.usdc_address
  max_amount_required := 0
  resource := ""
  description := ""
  mime_type := "application/json"
  pay_to := ""
  max_timeout_seconds := 60
  fee_payer := ""

/-- Source `PaymentContext` (the facilitator client it also carries is a
process-wide constant). -/
structure PaymentContext where
  payment : PaymentPayloadM
  requirements : PaymentRequirementsM
  is_verified : Bool
  deriving DecidableEq, Repr

/-- The `X-PAYMENT` request header after decoding. -/
inductive PaymentHeaderState where
  | missing
  | malformed
  | parsed (p : PaymentPayloadM)
  deriving DecidableEq, Repr

/-- Facilitator `/verify` response body. -/
structure VerifyResponse where
  is_valid : Bool
  invalid_reason : Option String
  deriving DecidableEq, Repr

/-- Facilitator `/settle` response body; `serialized` stands for
`base64(settle_response.model_dump_json())`, the `X-PAYMENT-RESPONSE`
header value, whose content no claim inspects. -/
structure SettleResponse where
  success : Bool
  error_reason : Option String
  serialized : String
  deriving DecidableEq, Repr

/-- The facilitator settle call failed: either the HTTP call raised, or it
returned `success=false`. -/
def SettleFails (fs : Except String SettleResponse) : Prop :=
  (∃ e, fs = .error e) ∨ (∃ sr, fs = .ok sr ∧ sr.success = false)

/-- The `<reason>` the 402 carries for a failed settle call: the raised
exception text, or the response's `error_reason` (defaulting to
"Unknown error"). -/
def settleFailReason : Except String SettleResponse → String
  | .error e => e
  | .ok sr => sr.error_reason.getD "Unknown error"

/-- Source `verify_payment`. An `.error e` result models raising
`X402PaymentRequired` with a 402 response whose error text is `e` (the 402
body also echoes the freshly built requirements). -/
def verify_payment (st : X402SettingsM) (request_url : String)
    (header : PaymentHeaderState)
    (matchesReq : PaymentPayloadM → PaymentRequirementsM → Bool)
    (facVerify : Except String VerifyResponse)
    (total_price : Int) (description : String) : Except String PaymentContext :=
  if st.enabled = false then
    .ok { payment := dummyPaymentPayload, requirements := dummyRequirements st,
          is_verified := false }
  else
    let pr := create_payment_requirements st total_price request_url description
    match header with
    | .missing => .error "No X-PAYMENT header provided"
    | .malformed => .error "Invalid payment header format"
    | .parsed payment =>
      if matchesReq payment pr = false then .error "Payment does not match requirements"
      else
        match facVerify with
        | .error e => .error ("Payment verification failed: " ++ e)
        | .ok vr =>
          if vr.is_valid = false then
            .error ("Invalid payment: " ++ (vr.invalid_reason.getD "Unknown error"))
          else .ok { payment := payment, requirements := pr, is_verified := true }

/-- Source `settle_payment`. Returns the `X-PAYMENT-RESPONSE` header value
to set (`none` when settlement is skipped); `.error e` models the 402
`X402PaymentRequired` with error text `e`. -/
def settle_payment (st : X402SettingsM) (ctx : PaymentContext)
    (facSettle : Except String SettleResponse) : Except String (Option String) :=
  if st.enabled = false ∨ ctx.is_verified = false then .ok none
  else
    match facSettle with
    | .ok sr =>
      if sr.success then .ok (some sr.serialized)
      else .error ("Settlement failed: " ++ (sr.error_reason.getD "Unknown error"))
    | .error e => .error ("Settlement failed: " ++ e)

/-! ## Endpoint handlers (`server/routers/docs.py`)

Each handler runs after authentication, with the chunks the retrieval
service returned. The outcome is the HTTP response kind plus the ledger
the request leaves behind. -/

/-- Handler outcome: a 2xx body with the optional `X-PAYMENT-RESPONSE`
header, a 402 `X402PaymentRequired` body, or a 500 from the generic
`except Exception` handler. -/
inductive HandlerResult where
  | success (chunks : List Chunk) (payment_response_header : Option String)
  | paymentRequired (error : String)
  | internalError (detail : String)
  deriving DecidableEq, Repr

/-- The `except X402PaymentRequired as e: return e.response` handler: a
raised payment error becomes the 402 response, leaving the ledger as it
was; otherwise the request continues. -/
def orPaymentRequired (ledger : Ledger) (r : Except String α)
    (k : α → HandlerResult × Ledger) : HandlerResult × Ledger :=
  match r with
  | .error e => (.paymentRequired e, ledger)
  | .ok a => k a

/-- The generic `except Exception` handler: any other raised error becomes
HTTP 500 with the endpoint's detail text, leaving the ledger as it was. -/
def orInternalError (detail : String) (ledger : Ledger) (r : Except String α)
    (k : α → HandlerResult × Ledger) : HandlerResult × Ledger :=
  match r with
  | .error _ => (.internalError detail, ledger)
  | .ok a => k a


/-- Source `search_docs` (POST `/docs/search`) from the point where the
retrieval result is available. Faithful to the source including its slip:
in the `total_price == 0` branch the `logger.info` f-string reads
`params.doc_id`, a field `SearchRequest` does not declare, so the eager
f-string evaluation raises `AttributeError`, which the generic handler
turns into HTTP 500 "Failed to search documents!". -/
def search_docs (st : X402SettingsM) (ledger : Ledger) (user_address : String)
    (retrieved : List Chunk) (request_url description : String)
    (header : PaymentHeaderState)
    (matchesReq : PaymentPayloadM → PaymentRequirementsM → Bool)
    (facVerify : Except String VerifyResponse)
    (facSettle : Except String SettleResponse) : HandlerResult × Ledger :=
  if retrieved = [] then (.success retrieved none, ledger)
  else
    let unpaid_chunks := (filter_unpaid_chunks ledger user_address retrieved).1
    let total_price := (unpaid_chunks.map (fun c => c.metadata.price)).sum
    if total_price = 0 then
      (.internalError "Failed to search documents!", ledger)
    else
      orPaymentRequired ledger
        (verify_payment st request_url header matchesReq facVerify total_price description)
        (fun ctx =>
          orPaymentRequired ledger (settle_payment st ctx facSettle) (fun respHeader =>
            orInternalError "Failed to search documents!" ledger
              (record_purchases st.enabled ledger user_address
                (unpaid_chunks.map
                  (fun c => stable_chunk_uuid c.metadata.doc_id c.metadata.chunk_id)))
              (fun ledger2 => (.success retrieved respHeader, ledger2))))

/-- Source `get_chunk_range` (POST `/docs/chunks`) from the point where the
retrieval result is available. Unlike `search_docs`, its request model does
declare `doc_id`, so the `total_price == 0` branch returns the full result. -/
def get_chunk_range (st : X402SettingsM) (ledger : Ledger) (user_address : String)
    (retrieved : List Chunk) (request_url description : String)
    (header : PaymentHeaderState)
    (matchesReq : PaymentPayloadM → PaymentRequirementsM → Bool)
    (facVerify : Except String VerifyResponse)
    (facSettle : Except String SettleResponse) : HandlerResult × Ledger :=
  if retrieved = [] then (.success retrieved none, ledger)
  else
    let unpaid_chunks := (filter_unpaid_chunks ledger user_address retrieved).1
    let total_price := (unpaid_chunks.map (fun c => c.metadata.price)).sum
    if total_price = 0 then
      (.success retrieved none, ledger)
    else
      orPaymentRequired ledger
        (verify_payment st request_url header matchesReq facVerify total_price description)
        (fun ctx =>
          orPaymentRequired ledger (settle_payment st ctx facSettle) (fun respHeader =>
            orInternalError "Failed to fetch chunks!" ledger
              (record_purchases st.enabled ledger user_address
                (unpaid_chunks.map
                  (fun c => stable_chunk_uuid c.metadata.doc_id c.metadata.chunk_id)))
              (fun ledger2 => (.success retrieved respHeader, ledger2))))

/-! ## Supporting lemmas -/

/-- The sdk and the server define the same canonical form. -/
theorem clientCanonicalString_eq_canonical_string (m : AuthMsg) :
    clientCanonicalString m = canonical_string m := rfl

@[simp] theorem orPaymentRequired_error (ledger : Ledger) (e : String)
    (k : α → HandlerResult × Ledger) :
    orPaymentRequired ledger (.error e) k = (.paymentRequired e, ledger) := rfl

@[simp] theorem orPaymentRequired_ok (ledger : Ledger) (a : α)
    (k : α → HandlerResult × Ledger) :
    orPaymentRequired ledger (.ok a) k = k a := rfl


@[simp] theorem orInternalError_error (detail : String) (ledger : Ledger) (e : String)
    (k : α → HandlerResult × Ledger) :
    orInternalError detail ledger (.error e) k = (.internalError detail, ledger) := rfl

@[simp] theorem orInternalError_ok (detail : String) (ledger : Ledger) (a : α)
    (k : α → HandlerResult × Ledger) :
    orInternalError detail ledger (.ok a) k = k a := rfl

/-! ## Claim C9: retrieval clamping -/

/-- **C9.** For every chunk-range request, a missing `end_chunk` defaults to
`start_chunk`, and the inclusive range `[start_chunk, end_chunk]` is clamped
so that at most `max_retrieved_chunks` consecutive chunk ids starting at
`start_chunk` are fetched; for every search request, `k` is clamped to
`min k max_retrieved_chunks` before querying the vector store. -/
theorem retrieval_clamping (doc_id : String) (start_chunk : Nat)
    (end_chunk? : Option Nat) (maxR : Int) (hmax : 0 ≤ maxR) :
    (∀ (store : Int → List Chunk) (k : Int), searchRetrieve store k maxR = store (min k maxR))
    ∧ get_chunk_range_ids doc_id start_chunk none maxR
        = get_chunk_range_ids doc_id start_chunk (some start_chunk) maxR
    ∧ ((get_chunk_range_ids doc_id start_chunk end_chunk? maxR).length : Int) ≤ maxR
    ∧ ∃ n : Nat, get_chunk_range_ids doc_id start_chunk end_chunk? maxR
        = (List.range n).map (fun j => stable_chunk_uuid doc_id (start_chunk + j)) := by
  have key : ∃ n : Nat, (n : Int) ≤ maxR ∧
      get_chunk_range_ids doc_id start_chunk end_chunk? maxR
        = (List.range n).map (fun j => stable_chunk_uuid doc_id (start_chunk + j)) := by
    refine ⟨((if ((end_chunk?.getD start_chunk : Nat) : Int) - start_chunk + 1 > maxR
      then (start_chunk : Int) + maxR - 1
      else ((end_chunk?.getD start_chunk : Nat) : Int)) + 1 - start_chunk).toNat, ?_, ?_⟩
    · split_ifs with h
      · omega
      · omega
    · simp only [get_chunk_range_ids, chunkRangeIndices, List.map_map]
      apply List.map_congr_left
      intro j hj
      simp only [Function.comp_apply, Int.toNat_natCast]
  obtain ⟨n, hn, hids⟩ := key
  refine ⟨fun store k => rfl, rfl, ?_, ⟨n, hids⟩⟩
  rw [hids]
  simp only [List.length_map, List.length_range]
  exact hn

/-- Concrete instance of `retrieval_clamping`: a request for chunks 2..10 of
a document under `max_retrieved_chunks = 3` fetches at most 3 ids. -/
theorem retrieval_clamping_witness :
    (0 : Int) ≤ 3 ∧ ((get_chunk_range_ids "d" 2 (some 10) 3).length : Int) ≤ 3 :=
  ⟨by decide, (retrieval_clamping "d" 2 (some 10) 3 (by decide)).2.2.1⟩

/-! ## Claim C6: authentication freshness window -/

/-- When the scheme, payload, message, URI and address checks pass, the
verifier reduces to the freshness window followed by the signature check. -/
theorem verify_checks_reduce (validAddress : String → Bool) (w : WireP)
    (msg : AuthMsg) (request_uri : String) (now ttl skew : Int)
    (hmsg : w.msgFields = some msg)
    (huri : msg.uri = request_uri)
    (haddr : validAddress w.address = true) :
    verify_solana_authorization_header validAddress (.payload w) request_uri now ttl skew
      = (if msg.issuedAt - now > skew then .error "issued_at is in the future"
         else if now - msg.issuedAt > ttl + skew then .error "message expired"
         else if edVerify w.address (canonical_string msg) w.sig then .ok w.address
         else .error "Signature verify failed") := by
  simp only [verify_solana_authorization_header, hmsg]
  rw [if_neg (show ¬ msg.uri ≠ request_uri by simp [huri])]
  by_cases hfut : msg.issuedAt - now > skew
  · rw [if_pos hfut, if_pos hfut]
  · rw [if_neg hfut, if_neg hfut]
    by_cases hexp : now - msg.issuedAt > ttl + skew
    · rw [if_pos hexp, if_pos hexp]
    · rw [if_neg hexp, if_neg hexp, if_neg (show ¬ ¬ validAddress w.address = true by simp [haddr])]

/-- **C6.** For every authorization header that passes the scheme, format,
URI and signature checks, the verifier accepts iff
`now - issuedAt ∈ [-skew, ttl + skew]` with the default `ttl = 300` and
`skew = 120` seconds; outside the window it rejects with
"issued_at is in the future" or "message expired". -/
theorem auth_freshness_window (validAddress : String → Bool) (w : WireP)
    (msg : AuthMsg) (request_uri : String) (now : Int)
    (hmsg : w.msgFields = some msg)
    (huri : msg.uri = request_uri)
    (haddr : validAddress w.address = true)
    (hsig : w.sig = signMessage w.address (canonical_string msg)) :
    (verify_solana_authorization_header validAddress (.payload w) request_uri now
        defaultMaxTtlSeconds defaultClockSkewSeconds = .ok w.address
      ↔ (-defaultClockSkewSeconds ≤ now - msg.issuedAt
          ∧ now - msg.issuedAt ≤ defaultMaxTtlSeconds + defaultClockSkewSeconds))
    ∧ (now - msg.issuedAt < -defaultClockSkewSeconds →
        verify_solana_authorization_header validAddress (.payload w) request_uri now
          defaultMaxTtlSeconds defaultClockSkewSeconds = .error "issued_at is in the future")
    ∧ (defaultMaxTtlSeconds + defaultClockSkewSeconds < now - msg.issuedAt →
        verify_solana_authorization_header validAddress (.payload w) request_uri now
          defaultMaxTtlSeconds defaultClockSkewSeconds = .error "message expired") := by
  have hed : edVerify w.address (canonical_string msg) w.sig = true := by
    rw [hsig]
    simp [edVerify, signMessage]
  rw [verify_checks_reduce validAddress w msg request_uri now _ _ hmsg huri haddr, hed]
  simp only [defaultMaxTtlSeconds, defaultClockSkewSeconds, if_true]
  refine ⟨?_, ?_, ?_⟩
  · split_ifs with hA hB
    · simp only [reduceCtorEq, false_iff]
      omega
    · simp only [reduceCtorEq, false_iff]
      omega
    · simp only [true_iff]
      omega
  · intro h
    rw [if_pos (by omega)]
  · intro h
    rw [if_neg (by omega), if_pos (by omega)]

/-- Concrete instance of `auth_freshness_window`: a message issued 200
seconds ago is accepted. -/
theorem auth_freshness_window_witness :
    verify_solana_authorization_header (fun _ => true)
      (.payload ⟨"W", some ⟨1, "http://h/docs/search", 1000⟩,
        signMessage "W" (canonical_string ⟨1, "http://h/docs/search", 1000⟩)⟩)
      "http://h/docs/search" 1200 defaultMaxTtlSeconds defaultClockSkewSeconds
      = .ok "W" :=
  (auth_freshness_window (fun _ => true)
    ⟨"W", some ⟨1, "http://h/docs/search", 1000⟩,
      signMessage "W" (canonical_string ⟨1, "http://h/docs/search", 1000⟩)⟩
    ⟨1, "http://h/docs/search", 1000⟩ "http://h/docs/search" 1200
    rfl rfl rfl rfl).1.mpr (by decide)

/-! ## Claim C7: auth canonicalization round-trip -/

/-- **C7.** For every version, uri and fresh `issuedAt`, the header built by
the client SDK with keypair `kp` verifies successfully under the server
verifier when the request URI equals `uri`, returning `kp`'s address; and
modifying any canonical line (version, uri, or issued-at) of the signed
message after signing — i.e. presenting a message whose canonical string
differs from the signed one — makes verification fail with an `AuthError`
(in particular any changed uri fails with "URI mismatch"). -/
theorem auth_sign_then_verify (validAddress : String → Bool) (kp uri : String)
    (version issuedAt now : Int)
    (haddr : validAddress kp = true)
    (hfresh₁ : -defaultClockSkewSeconds ≤ now - issuedAt)
    (hfresh₂ : now - issuedAt ≤ defaultMaxTtlSeconds + defaultClockSkewSeconds) :
    (verify_solana_authorization_header validAddress
        (build_solana_authorization_header kp uri version issuedAt) uri now
        defaultMaxTtlSeconds defaultClockSkewSeconds = .ok kp)
    ∧ (∀ msg2 : AuthMsg,
        canonical_string msg2 ≠ canonical_string ⟨version, uri, issuedAt⟩ →
        ∃ e, verify_solana_authorization_header validAddress
          (.payload ⟨kp, some msg2, signMessage kp (canonical_string ⟨version, uri, issuedAt⟩)⟩)
          uri now defaultMaxTtlSeconds defaultClockSkewSeconds = .error e)
    ∧ (∀ uri2, uri2 ≠ uri →
        verify_solana_authorization_header validAddress
          (.payload ⟨kp, some ⟨version, uri2, issuedAt⟩,
            signMessage kp (canonical_string ⟨version, uri, issuedAt⟩)⟩)
          uri now defaultMaxTtlSeconds defaultClockSkewSeconds = .error "URI mismatch") := by
  simp only [defaultMaxTtlSeconds, defaultClockSkewSeconds] at hfresh₁ hfresh₂
  refine ⟨?_, ?_, ?_⟩
  · rw [build_solana_authorization_header,
      verify_checks_reduce validAddress _ ⟨version, uri, issuedAt⟩ uri now _ _ rfl rfl haddr]
    have hp : (⟨version, uri, issuedAt⟩ : AuthMsg).issuedAt = issuedAt := rfl
    simp only [hp, defaultMaxTtlSeconds, defaultClockSkewSeconds]
    rw [if_neg (by omega), if_neg (by omega), if_pos]
    have hc := clientCanonicalString_eq_canonical_string (⟨version, uri, issuedAt⟩ : AuthMsg)
    simp [edVerify, signMessage, hc]
  · intro msg2 hcan
    by_cases huri2 : msg2.uri = uri
    · rw [verify_checks_reduce validAddress _ msg2 uri now _ _ rfl huri2 haddr]
      have hed : edVerify kp (canonical_string msg2)
          (signMessage kp (canonical_string ⟨version, uri, issuedAt⟩)) = false := by
        have h1 : (canonical_string ⟨version, uri, issuedAt⟩ == canonical_string msg2) = false :=
          beq_eq_false_iff_ne.mpr (Ne.symm hcan)
        simp [edVerify, signMessage, h1]
      by_cases hfut : msg2.issuedAt - now > defaultClockSkewSeconds
      · exact ⟨_, by rw [if_pos hfut]⟩
      · by_cases hexp : now - msg2.issuedAt > defaultMaxTtlSeconds + defaultClockSkewSeconds
        · exact ⟨_, by rw [if_neg hfut, if_pos hexp]⟩
        · exact ⟨"Signature verify failed", by rw [if_neg hfut, if_neg hexp]; simp [hed]⟩
    · refine ⟨"URI mismatch", ?_⟩
      simp only [verify_solana_authorization_header]
      rw [if_pos huri2]
  · intro uri2 hne
    simp only [verify_solana_authorization_header]
    rw [if_pos hne]

/-- Concrete instance of `auth_sign_then_verify`: a freshly signed header
for wallet "W" verifies back to "W". -/
theorem auth_sign_then_verify_witness :
    verify_solana_authorization_header (fun _ => true)
      (build_solana_authorization_header "W" "http://h/docs/chunks" 1 50) "http://h/docs/chunks"
      100 defaultMaxTtlSeconds defaultClockSkewSeconds = .ok "W" :=
  (auth_sign_then_verify (fun _ => true) "W" "http://h/docs/chunks" 1 50 100
    rfl (by decide) (by decide)).1

/-! ## Claim C3: ledger record idempotence (code bug)

`record_purchases`'s inline comment announces `on_conflict_do_nothing`,
but the body issues plain ORM inserts: re-recording an already-owned
`(wallet, chunk_id)` pair raises `IntegrityError` instead of being
suppressed, so recording is not idempotent. -/

/-- **C3 (refuting evaluation).** Recording `["c1"]` for wallet "W" twice:
the first call succeeds and inserts the pair, the second raises
`IntegrityError` (the claim expects it to succeed and leave the ledger
unchanged). -/
theorem record_purchases_conflict_raises :
    record_purchases true [] "W" ["c1"] = .ok [("W", "c1")]
    ∧ record_purchases true [("W", "c1")] "W" ["c1"]
        = .error "IntegrityError: duplicate key value violates unique constraint" := by
  exact ⟨rfl, rfl⟩

/-! ## Claim C4: indexing emits every chunk (code bug)

`index_document` rebinds `chunks` to an empty list before the emit loop,
so no record is ever upserted and `chunks_count` is always 0. -/

/-- **C4 (refuting evaluation).** A document whose content splits into 2
chunks: `index_document` upserts no records and reports `chunks_count = 0`
(the claim expects 2 priced records with indices 0 and 1 and
`chunks_count = 2`). -/
theorem index_document_emits_no_records :
    ((fun s => if s = "hello world" then ["hello ", "world"] else [s]) "hello world").length = 2
    ∧ index_document (fun s => if s = "hello world" then ["hello ", "world"] else [s])
        "doc.pdf" "hello world" 1 "pdf" 6
      = some ([], { doc_id := build_doc_id "doc.pdf", source := "doc.pdf", chunks_count := 0 }) := by
  exact ⟨rfl, rfl⟩

/-! ## Claim C1: no double-charging (code bug in the search endpoint)

The diff itself charges only unpaid chunks, and the chunk-range endpoint
returns 200 with the full result when everything is already owned; but in
`search_docs` the `total_price == 0` branch evaluates
`params.doc_id` on `SearchRequest`, which has no such field, so the
all-chunks-already-paid search request ends in HTTP 500, not 200. -/

set_option maxRecDepth 1000000 in
/-- **C1 (refuting evaluation).** Wallet "W" has already purchased the one
chunk a search returns: `search_docs` answers 500
"Failed to search documents!" (the claim expects 200 with the full result),
while the same state on the chunk-range endpoint does yield the full
result with no challenge and no ledger write. -/
theorem search_all_paid_internal_error :
    search_docs ⟨true, "P", "solana-devnet", "U", 6, "F"⟩
        [("W", stable_chunk_uuid "d" 0)] "W"
        [⟨"t", ⟨"s", "pdf", "d", 0, 5⟩⟩] "http://h/docs/search" "q" .missing
        (fun _ _ => true) (.ok ⟨true, none⟩) (.ok ⟨true, none, "hdr"⟩)
      = (.internalError "Failed to search documents!", [("W", stable_chunk_uuid "d" 0)])
    ∧ get_chunk_range ⟨true, "P", "solana-devnet", "U", 6, "F"⟩
        [("W", stable_chunk_uuid "d" 0)] "W"
        [⟨"t", ⟨"s", "pdf", "d", 0, 5⟩⟩] "http://h/docs/chunks" "q" .missing
        (fun _ _ => true) (.ok ⟨true, none⟩) (.ok ⟨true, none, "hdr"⟩)
      = (.success [⟨"t", ⟨"s", "pdf", "d", 0, 5⟩⟩] none, [("W", stable_chunk_uuid "d" 0)]) := by
  constructor
  · decide
  · decide

/-! ## Claim C10: payment-disabled bypass -/

set_option maxRecDepth 1000000 in
/-- **C10 (counterexample).** With payments disabled, a search whose
returned chunks the wallet already owns still fails with HTTP 500 (the
`params.doc_id` logging slip), so not every retrieval request succeeds
when `settings.x402.enabled` is false. -/
theorem payment_disabled_search_not_success :
    search_docs ⟨false, "P", "solana-devnet", "U", 6, "F"⟩
        [("W2", stable_chunk_uuid "d2" 0)] "W2"
        [⟨"t", ⟨"s", "web", "d2", 0, 7⟩⟩] "http://h/docs/search" "q" .missing
        (fun _ _ => true) (.ok ⟨true, none⟩) (.ok ⟨true, none, "hdr"⟩)
      = (.internalError "Failed to search documents!", [("W2", stable_chunk_uuid "d2" 0)]) := by
  decide

/-- **C10 (amended).** When `settings.x402.enabled` is false, every
chunk-range request — and every search request outside the
`total_price == 0` logging slip refuted above — succeeds free of charge
with no `X-PAYMENT-RESPONSE` header and an unchanged ledger, for *every*
`X-PAYMENT` header state and facilitator behaviour; `verify_payment`
returns the unverified dummy context without inspecting the header,
`settle_payment` returns without setting a header, and `record_purchases`
writes nothing. -/
theorem payment_disabled_bypass
    (st : X402SettingsM) (ledger : Ledger) (user url desc : String)
    (retrieved : List Chunk) (hdr : PaymentHeaderState)
    (mf : PaymentPayloadM → PaymentRequirementsM → Bool)
    (fv : Except String VerifyResponse) (fs : Except String SettleResponse)
    (hdis : st.enabled = false) :
    get_chunk_range st ledger user retrieved url desc hdr mf fv fs
      = (.success retrieved none, ledger)
    ∧ (totalUnpaidPrice ledger user retrieved ≠ 0 ∨ retrieved = [] →
        search_docs st ledger user retrieved url desc hdr mf fv fs
          = (.success retrieved none, ledger))
    ∧ (∀ tp d2, verify_payment st url hdr mf fv tp d2
        = .ok ⟨dummyPaymentPayload, dummyRequirements st, false⟩)
    ∧ (∀ ctx, settle_payment st ctx fs = .ok none)
    ∧ (∀ ids, record_purchases st.enabled ledger user ids = .ok ledger) := by
  have hverify : ∀ tp d2, verify_payment st url hdr mf fv tp d2
      = .ok ⟨dummyPaymentPayload, dummyRequirements st, false⟩ := by
    intro tp d2
    simp [verify_payment, hdis]
  have hsettle : ∀ ctx, settle_payment st ctx fs = .ok none := by
    intro ctx
    simp [settle_payment, hdis]
  have hrecord : ∀ ids, record_purchases st.enabled ledger user ids = .ok ledger := by
    intro ids
    rw [hdis]
    simp [record_purchases]
  refine ⟨?_, ?_, hverify, hsettle, hrecord⟩
  · by_cases hempty : retrieved = []
    · subst hempty
      simp [get_chunk_range]
    · rw [get_chunk_range, if_neg hempty]
      by_cases hzero : (((filter_unpaid_chunks ledger user retrieved).1).map
          (fun c => c.metadata.price)).sum = 0
      · simp [hzero]
      · simp only [if_neg hzero, hverify, hsettle, hrecord, orPaymentRequired_ok,
          orInternalError_ok]
  · intro hcase
    by_cases hempty : retrieved = []
    · subst hempty
      simp [search_docs]
    · have hzero : ¬ (((filter_unpaid_chunks ledger user retrieved).1).map
          (fun c => c.metadata.price)).sum = 0 := by
        rcases hcase with h | h
        · exact h
        · exact absurd h hempty
      rw [search_docs, if_neg hempty]
      simp only [if_neg hzero, hverify, hsettle, hrecord, orPaymentRequired_ok,
          orInternalError_ok]

/-- Concrete instance of `payment_disabled_bypass`: with payments disabled,
a chunk-range request for an unowned chunk is served with no header and no
ledger write. -/
theorem payment_disabled_bypass_witness :
    (⟨false, "P", "solana-devnet", "U", 6, "F"⟩ : X402SettingsM).enabled = false
    ∧ get_chunk_range ⟨false, "P", "solana-devnet", "U", 6, "F"⟩ [] "W"
        [⟨"t", ⟨"s", "web", "d3", 0, 7⟩⟩] "u" "q" .missing
        (fun _ _ => true) (.ok ⟨true, none⟩) (.ok ⟨true, none, "x"⟩)
      = (.success [⟨"t", ⟨"s", "web", "d3", 0, 7⟩⟩] none, []) :=
  ⟨rfl, (payment_disabled_bypass ⟨false, "P", "solana-devnet", "U", 6, "F"⟩ [] "W" "u" "q"
    [⟨"t", ⟨"s", "web", "d3", 0, 7⟩⟩] .missing (fun _ _ => true)
    (.ok ⟨true, none⟩) (.ok ⟨true, none, "x"⟩) rfl).1⟩

/-! ## Claim C2: settlement atomicity -/


/-- With payments enabled, a successfully verified context is marked
`is_verified` (the dummy context only arises when payments are disabled). -/
theorem verify_payment_ok_is_verified (st : X402SettingsM) (url : String)
    (hdr : PaymentHeaderState) (mf : PaymentPayloadM → PaymentRequirementsM → Bool)
    (fv : Except String VerifyResponse) (tp : Int) (d2 : String) (ctx : PaymentContext)
    (hen : st.enabled = true)
    (h : verify_payment st url hdr mf fv tp d2 = .ok ctx) :
    ctx.is_verified = true := by
  rw [verify_payment, hen] at h
  rw [if_neg (by simp)] at h
  cases hdr with
  | missing =>
    dsimp only at h
    exact absurd h (by simp)
  | malformed =>
    dsimp only at h
    exact absurd h (by simp)
  | parsed p =>
    dsimp only at h
    by_cases hm : mf p (create_payment_requirements st tp url d2) = false
    · rw [if_pos hm] at h
      exact absurd h (by simp)
    · rw [if_neg hm] at h
      cases fv with
      | error e => exact absurd h (by simp)
      | ok vr =>
        dsimp only at h
        by_cases hvv : vr.is_valid = false
        · rw [if_pos hvv] at h
          exact absurd h (by simp)
        · rw [if_neg hvv] at h
          rw [← Except.ok.inj h]

/-- With payments enabled and a verified context, a failed settle call
yields the 402 "Settlement failed: <reason>". -/
theorem settle_payment_fail (st : X402SettingsM) (ctx : PaymentContext)
    (fs : Except String SettleResponse)
    (hen : st.enabled = true) (hver : ctx.is_verified = true) (hf : SettleFails fs) :
    settle_payment st ctx fs = .error ("Settlement failed: " ++ settleFailReason fs) := by
  rcases hf with ⟨e, rfl⟩ | ⟨sr, rfl, hsr⟩
  · simp [settle_payment, hen, hver, settleFailReason]
  · simp [settle_payment, hen, hver, settleFailReason, hsr]

/-- With payments enabled and a verified context, `settle_payment` only
returns normally when the facilitator reported a successful settle. -/
theorem settle_payment_ok (st : X402SettingsM) (ctx : PaymentContext)
    (fs : Except String SettleResponse) (respH : Option String)
    (hen : st.enabled = true) (hver : ctx.is_verified = true)
    (h : settle_payment st ctx fs = .ok respH) :
    ∃ sr, fs = .ok sr ∧ sr.success = true := by
  simp only [settle_payment, hen, hver] at h
  cases fs with
  | error e => simp at h
  | ok sr =>
    by_cases hs : sr.success
    · exact ⟨sr, rfl, hs⟩
    · simp [hs] at h

/-- **C2.** With payments enabled: a failed facilitator settle call makes
`settle_payment` abort with 402 "Settlement failed: <reason>"; under a
failed settle both retrieval handlers leave the ledger unchanged, and when
the request had reached a successful verify they answer exactly that 402;
conversely, either handler changes the ledger only when the facilitator
settle succeeded. -/
theorem settlement_atomicity
    (st : X402SettingsM) (ledger : Ledger) (user url desc : String)
    (retrieved : List Chunk) (hdr : PaymentHeaderState)
    (mf : PaymentPayloadM → PaymentRequirementsM → Bool)
    (fv : Except String VerifyResponse) (fs : Except String SettleResponse)
    (hen : st.enabled = true) :
    (∀ p pr, SettleFails fs →
      settle_payment st ⟨p, pr, true⟩ fs
        = .error ("Settlement failed: " ++ settleFailReason fs))
    ∧ ((get_chunk_range st ledger user retrieved url desc hdr mf fv fs).2 ≠ ledger →
        ∃ sr, fs = .ok sr ∧ sr.success = true)
    ∧ ((search_docs st ledger user retrieved url desc hdr mf fv fs).2 ≠ ledger →
        ∃ sr, fs = .ok sr ∧ sr.success = true)
    ∧ (SettleFails fs →
        (get_chunk_range st ledger user retrieved url desc hdr mf fv fs).2 = ledger
        ∧ (search_docs st ledger user retrieved url desc hdr mf fv fs).2 = ledger)
    ∧ (SettleFails fs → ∀ ctx,
        verify_payment st url hdr mf fv (totalUnpaidPrice ledger user retrieved) desc
          = .ok ctx →
        retrieved ≠ [] → totalUnpaidPrice ledger user retrieved ≠ 0 →
        get_chunk_range st ledger user retrieved url desc hdr mf fv fs
          = (.paymentRequired ("Settlement failed: " ++ settleFailReason fs), ledger)
        ∧ search_docs st ledger user retrieved url desc hdr mf fv fs
          = (.paymentRequired ("Settlement failed: " ++ settleFailReason fs), ledger)) := by
  have hcr : (get_chunk_range st ledger user retrieved url desc hdr mf fv fs).2 ≠ ledger →
      ∃ sr, fs = .ok sr ∧ sr.success = true := by
    intro hne
    rw [get_chunk_range] at hne
    by_cases hempty : retrieved = []
    · rw [if_pos hempty] at hne
      exact absurd rfl hne
    · rw [if_neg hempty] at hne
      by_cases hzero : (((filter_unpaid_chunks ledger user retrieved).1).map
          (fun c => c.metadata.price)).sum = 0
      · rw [if_pos hzero] at hne
        exact absurd rfl hne
      · rw [if_neg hzero] at hne
        cases hv : verify_payment st url hdr mf fv
            ((((filter_unpaid_chunks ledger user retrieved).1).map
              (fun c => c.metadata.price)).sum) desc with
        | error e =>
          rw [hv] at hne
          simp only [orPaymentRequired_error] at hne
          exact absurd rfl hne
        | ok ctx =>
          rw [hv] at hne
          simp only [orPaymentRequired_ok] at hne
          cases hs : settle_payment st ctx fs with
          | error e =>
            rw [hs] at hne
            simp only [orPaymentRequired_error] at hne
            exact absurd rfl hne
          | ok respH =>
            exact settle_payment_ok st ctx fs respH hen
              (verify_payment_ok_is_verified st url hdr mf fv _ desc ctx hen hv) hs
  have hsd : (search_docs st ledger user retrieved url desc hdr mf fv fs).2 ≠ ledger →
      ∃ sr, fs = .ok sr ∧ sr.success = true := by
    intro hne
    rw [search_docs] at hne
    by_cases hempty : retrieved = []
    · rw [if_pos hempty] at hne
      exact absurd rfl hne
    · rw [if_neg hempty] at hne
      by_cases hzero : (((filter_unpaid_chunks ledger user retrieved).1).map
          (fun c => c.metadata.price)).sum = 0
      · rw [if_pos hzero] at hne
        exact absurd rfl hne
      · rw [if_neg hzero] at hne
        cases hv : verify_payment st url hdr mf fv
            ((((filter_unpaid_chunks ledger user retrieved).1).map
              (fun c => c.metadata.price)).sum) desc with
        | error e =>
          rw [hv] at hne
          simp only [orPaymentRequired_error] at hne
          exact absurd rfl hne
        | ok ctx =>
          rw [hv] at hne
          simp only [orPaymentRequired_ok] at hne
          cases hs : settle_payment st ctx fs with
          | error e =>
            rw [hs] at hne
            simp only [orPaymentRequired_error] at hne
            exact absurd rfl hne
          | ok respH =>
            exact settle_payment_ok st ctx fs respH hen
              (verify_payment_ok_is_verified st url hdr mf fv _ desc ctx hen hv) hs
  have hnosucc : SettleFails fs → ∀ sr, fs = .ok sr → sr.success = true → False := by
    intro hf sr hfs hsu
    rcases hf with ⟨e, he⟩ | ⟨sr2, hfs2, hsu2⟩
    · rw [he] at hfs
      exact Except.noConfusion hfs
    · rw [hfs2] at hfs
      rw [Except.ok.inj hfs] at hsu2
      rw [hsu] at hsu2
      exact Bool.noConfusion hsu2
  refine ⟨?_, hcr, hsd, ?_, ?_⟩
  · intro p pr hf
    exact settle_payment_fail st ⟨p, pr, true⟩ fs hen rfl hf
  · intro hf
    constructor
    · by_contra hne
      obtain ⟨sr, hfs, hsu⟩ := hcr hne
      exact hnosucc hf sr hfs hsu
    · by_contra hne
      obtain ⟨sr, hfs, hsu⟩ := hsd hne
      exact hnosucc hf sr hfs hsu
  · intro hf ctx hv hempty hzero
    have hver := verify_payment_ok_is_verified st url hdr mf fv _ desc ctx hen hv
    have hsfail := settle_payment_fail st ctx fs hen hver hf
    rw [totalUnpaidPrice] at hv hzero
    constructor
    · rw [get_chunk_range, if_neg hempty, if_neg hzero, hv]
      simp only [orPaymentRequired_ok]
      rw [hsfail]
      simp only [orPaymentRequired_error]
    · rw [search_docs, if_neg hempty, if_neg hzero, hv]
      simp only [orPaymentRequired_ok]
      rw [hsfail]
      simp only [orPaymentRequired_error]

/-- Concrete instance of `settlement_atomicity`: with payments enabled, a
settle call answering `success=false` with reason "expired" yields the 402
"Settlement failed: expired" for any verified context. -/
theorem settlement_atomicity_witness :
    (⟨true, "P", "solana-devnet", "U", 6, "F"⟩ : X402SettingsM).enabled = true
    ∧ settle_payment ⟨true, "P", "solana-devnet", "U", 6, "F"⟩
        ⟨dummyPaymentPayload, dummyRequirements ⟨true, "P", "solana-devnet", "U", 6, "F"⟩, true⟩
        (.ok ⟨false, some "expired", ""⟩)
      = .error ("Settlement failed: " ++ settleFailReason (.ok ⟨false, some "expired", ""⟩)) :=
  ⟨rfl,
    (settlement_atomicity ⟨true, "P", "solana-devnet", "U", 6, "F"⟩ [] "W" "u" "q" []
      .missing (fun _ _ => true) (.ok ⟨true, none⟩) (.ok ⟨false, some "expired", ""⟩)
      rfl).1 dummyPaymentPayload
      (dummyRequirements ⟨true, "P", "solana-devnet", "U", 6, "F"⟩)
      (Or.inr ⟨⟨false, some "expired", ""⟩, rfl, rfl⟩)⟩

/-! ## Claim C5: price allocation -/

/-- Python `int(q)` on a non-negative value is the floor. -/
theorem pyInt_eq_floor (q : ℚ) (hq : 0 ≤ q) : pyInt q = ⌊q⌋ := by
  rw [Rat.floor_def]
  unfold pyInt
  have hnum : 0 ≤ q.num := Rat.num_nonneg.mpr hq
  obtain ⟨k, hk⟩ := Int.eq_ofNat_of_zero_le hnum
  rw [hk]
  rfl

/-- The per-chunk price as exact natural-number arithmetic:
`⌊chars/total · base⌋ = chars·base / total` with flooring division. -/
theorem chunk_price_eq_nat (c T : Nat) (B : Int) (hB : 0 ≤ B) (hT : 0 < T) :
    chunk_price c T B = ((c * B.toNat / T : Nat) : Int) := by
  rw [chunk_price, if_pos hT]
  have harg : ((c : ℚ) / (T : ℚ)) * (B : ℚ)
      = (((c * B.toNat : Nat) : Int) : ℚ) / ((T : Nat) : ℚ) := by
    obtain ⟨b, rfl⟩ := Int.eq_ofNat_of_zero_le hB
    rw [Int.toNat_natCast]
    push_cast
    ring
  rw [harg, pyInt_eq_floor _ (by positivity), Rat.floor_intCast_div_natCast,
    ← Int.natCast_div]

/-- Summed over a whole document, floored per-chunk prices reach the total
base-unit price up to at most one unit per chunk. -/
theorem alloc_sum_nat (lens : List Nat) (BN : Nat) (hT : 0 < lens.sum) :
    (lens.map (fun c => c * BN / lens.sum)).sum ≤ BN
    ∧ BN - (lens.map (fun c => c * BN / lens.sum)).sum ≤ lens.length - 1 := by
  set T := lens.sum with hTdef
  set S := (lens.map (fun c => c * BN / T)).sum with hSdef
  set R := (lens.map (fun c => c * BN % T)).sum with hRdef
  set N := lens.length with hNdef
  have key : ∀ l : List Nat, (l.map (fun c => c * BN)).sum
      = T * (l.map (fun c => c * BN / T)).sum + (l.map (fun c => c * BN % T)).sum := by
    intro l
    induction l with
    | nil => simp
    | cons a l ih =>
      simp only [List.map_cons, List.sum_cons, ih]
      have hdm : T * (a * BN / T) + a * BN % T = a * BN := Nat.div_add_mod (a * BN) T
      calc a * BN + (T * (l.map (fun c => c * BN / T)).sum + (l.map (fun c => c * BN % T)).sum)
          = (T * (a * BN / T) + a * BN % T)
            + (T * (l.map (fun c => c * BN / T)).sum + (l.map (fun c => c * BN % T)).sum) := by
            rw [hdm]
        _ = T * (a * BN / T + (l.map (fun c => c * BN / T)).sum)
            + (a * BN % T + (l.map (fun c => c * BN % T)).sum) := by ring
  have hsum : (lens.map (fun c => c * BN)).sum = T * BN := by
    have : ∀ l : List Nat, (l.map (fun c => c * BN)).sum = l.sum * BN := by
      intro l
      induction l with
      | nil => simp
      | cons a l ih => simp [List.map_cons, List.sum_cons, ih, Nat.add_mul]
    rw [this lens]
  have hkey : T * BN = T * S + R := by rw [← hsum, key lens]
  have hSle : S ≤ BN := by
    have h1 : T * S ≤ T * BN := by
      rw [hkey]
      exact Nat.le_add_right _ _
    exact Nat.le_of_mul_le_mul_left h1 hT
  refine ⟨hSle, ?_⟩
  have hN1 : 1 ≤ N := by
    rcases lens with _ | ⟨a, l⟩
    · simp [hTdef] at hT
    · simp [hNdef]
  have hR : R ≤ N * (T - 1) := by
    have : ∀ x ∈ lens.map (fun c => c * BN % T), x ≤ T - 1 := by
      intro x hx
      obtain ⟨c, _, rfl⟩ := List.mem_map.mp hx
      have := Nat.mod_lt (c * BN) hT
      omega
    calc R ≤ (lens.map (fun c => c * BN % T)).length • (T - 1) :=
        List.sum_le_card_nsmul _ _ this
      _ = N * (T - 1) := by simp [hNdef, smul_eq_mul]
  by_contra hcon
  have hge : S + N ≤ BN := by omega
  have h4 : T * (S + N) ≤ T * BN := Nat.mul_le_mul_left T hge
  have h5 : T * (S + N) = T * S + T * N := Nat.mul_add T S N
  have h6 : N * (T - 1) + N = N * T := by
    have hT1 : T - 1 + 1 = T := Nat.succ_pred_eq_of_pos hT
    calc N * (T - 1) + N = N * (T - 1 + 1) := by rw [Nat.mul_add, Nat.mul_one]
      _ = N * T := by rw [hT1]
  have h7 : T * N ≤ R := by
    have := h4
    rw [h5, hkey] at this
    exact Nat.le_of_add_le_add_left this
  have h8 : N * T ≤ N * (T - 1) := by
    calc N * T = T * N := Nat.mul_comm N T
      _ ≤ R := h7
      _ ≤ N * (T - 1) := hR
  rw [← h6] at h8
  have h9 : N ≤ 0 := by omega
  omega

/-- **C5.** For a document priced `price_usd` (exact-rational idealisation of
the Python float) with `asset_decimals = d`, split into chunks of lengths
`lens` with positive total characters: the allocator's base total is
`⌊price_usd · 10^d⌋`, each chunk price is
`⌊chars_i / total_chars · total_base⌋`, every price is a non-negative
integer, and the prices sum to at most `total_base`, falling short by at
most `N - 1` base units. -/
theorem price_allocation (price_usd : ℚ) (d : Nat) (lens : List Nat)
    (hp : 0 ≤ price_usd) (hT : 0 < lens.sum) :
    price_base_units price_usd d = ⌊price_usd * 10 ^ d⌋
    ∧ (∀ c ∈ lens, chunk_price c lens.sum (price_base_units price_usd d)
        = ⌊((c : ℚ) / (lens.sum : ℚ)) * ((price_base_units price_usd d : Int) : ℚ)⌋)
    ∧ (∀ p ∈ allocatedPrices lens (price_base_units price_usd d), 0 ≤ p)
    ∧ (allocatedPrices lens (price_base_units price_usd d)).sum
        ≤ price_base_units price_usd d
    ∧ price_base_units price_usd d
        - (allocatedPrices lens (price_base_units price_usd d)).sum
        ≤ (lens.length : Int) - 1 := by
  have hq : (0 : ℚ) ≤ price_usd * 10 ^ d := by positivity
  have hfloor : price_base_units price_usd d = ⌊price_usd * 10 ^ d⌋ :=
    pyInt_eq_floor _ hq
  set B := price_base_units price_usd d with hBdef
  have hB : 0 ≤ B := by
    rw [hfloor]
    exact Int.floor_nonneg.mpr hq
  set BN := B.toNat with hBNdef
  have hBNcast : (BN : Int) = B := Int.toNat_of_nonneg hB
  have hmap : allocatedPrices lens B
      = lens.map (fun c => ((c * BN / lens.sum : Nat) : Int)) := by
    unfold allocatedPrices
    exact List.map_congr_left (fun c _ => chunk_price_eq_nat c lens.sum B hB hT)
  have hsumcast : (allocatedPrices lens B).sum
      = (((lens.map (fun c => c * BN / lens.sum)).sum : Nat) : Int) := by
    rw [hmap]
    rw [show (fun c => ((c * BN / lens.sum : Nat) : Int))
      = (fun n : Nat => (n : Int)) ∘ (fun c => c * BN / lens.sum) from rfl]
    rw [← List.map_map]
    exact (Nat.cast_list_sum _).symm
  obtain ⟨hle, hshort⟩ := alloc_sum_nat lens BN hT
  refine ⟨hfloor, ?_, ?_, ?_, ?_⟩
  · intro c _
    rw [chunk_price, if_pos hT]
    refine pyInt_eq_floor _ ?_
    have hBq : (0 : ℚ) ≤ ((B : Int) : ℚ) := by exact_mod_cast hB
    exact mul_nonneg (div_nonneg (by positivity) (by positivity)) hBq
  · intro p hpmem
    rw [hmap] at hpmem
    obtain ⟨c, _, rfl⟩ := List.mem_map.mp hpmem
    exact Int.natCast_nonneg _
  · rw [hsumcast]
    omega
  · rw [hsumcast]
    have hN : 0 < lens.length := by
      rcases lens with _ | ⟨a, l⟩
      · simp at hT
      · simp
    omega

/-- Concrete instance of `price_allocation`: a $0.006 document (decimals 6)
split into chunks of 6 and 5 characters allocates 3272 and 2727 base
units, one unit short of the 6000-unit total. -/
theorem price_allocation_witness :
    (0 : ℚ) ≤ 3 / 500
    ∧ price_base_units (3 / 500) 6 = 6000
    ∧ allocatedPrices [6, 5] (price_base_units (3 / 500) 6) = [3272, 2727]
    ∧ (allocatedPrices [6, 5] (price_base_units (3 / 500) 6)).sum
        ≤ price_base_units (3 / 500) 6 := by
  have h6000 : price_base_units (3 / 500) 6 = 6000 := by
    rw [price_base_units, pyInt_eq_floor _ (by norm_num)]
    norm_num
  refine ⟨by norm_num, h6000, ?_,
    (price_allocation (3 / 500) 6 [6, 5] (by norm_num) (by decide)).2.2.2.1⟩
  rw [h6000]
  show [chunk_price 6 11 6000, chunk_price 5 11 6000] = [3272, 2727]
  rw [chunk_price_eq_nat 6 11 6000 (by norm_num) (by norm_num),
    chunk_price_eq_nat 5 11 6000 (by norm_num) (by norm_num)]
  norm_num

/-! ## Claim C8: chunk identity -/

theorem toList_mk (l : List Char) : (String.mk l).toList = l := rfl

theorem toList_append (a b : String) : (a ++ b).toList = a.toList ++ b.toList := rfl

theorem word32BE_lt (w : Nat) : ∀ b ∈ word32BE w, b < 256 := by
  intro b hb
  simp only [word32BE, List.mem_cons, List.not_mem_nil, or_false] at hb
  rcases hb with rfl | rfl | rfl | rfl <;> omega

theorem sha1Bytes_lt (msg : List Nat) : ∀ b ∈ sha1Bytes msg, b < 256 := by
  intro b hb
  unfold sha1Bytes at hb
  simp only [List.mem_flatMap] at hb
  obtain ⟨w, _, hbw⟩ := hb
  exact word32BE_lt w b hbw

theorem sha256Bytes_lt (msg : List Nat) : ∀ b ∈ sha256Bytes msg, b < 256 := by
  intro b hb
  unfold sha256Bytes at hb
  simp only [List.mem_flatMap] at hb
  obtain ⟨w, _, hbw⟩ := hb
  exact word32BE_lt w b hbw

theorem hexChar_ne_dash (n : Nat) (h : n < 16) : (hexChar n != '-') = true := by
  interval_cases n <;> decide

theorem hexChar_mem_hexdigits (n : Nat) (h : n < 16) :
    hexChar n ∈ "0123456789abcdef".toList := by
  interval_cases n <;> decide

theorem bytesToHex_ne_dash (bs : List Nat) (h : ∀ b ∈ bs, b < 256) :
    ∀ ch ∈ (bytesToHex bs).toList, (ch != '-') = true := by
  intro ch hch
  unfold bytesToHex at hch
  rw [toList_mk] at hch
  simp only [List.mem_flatMap, List.mem_cons, List.not_mem_nil, or_false] at hch
  obtain ⟨b, hb, hchb⟩ := hch
  have hb256 := h b hb
  rcases hchb with rfl | rfl
  · exact hexChar_ne_dash _ (by omega)
  · exact hexChar_ne_dash _ (by omega)

theorem bytesToHex_mem_hexdigits (bs : List Nat) (h : ∀ b ∈ bs, b < 256) :
    ∀ ch ∈ (bytesToHex bs).toList, ch ∈ "0123456789abcdef".toList := by
  intro ch hch
  unfold bytesToHex at hch
  rw [toList_mk] at hch
  simp only [List.mem_flatMap, List.mem_cons, List.not_mem_nil, or_false] at hch
  obtain ⟨b, hb, hchb⟩ := hch
  have hb256 := h b hb
  rcases hchb with rfl | rfl
  · exact hexChar_mem_hexdigits _ (by omega)
  · exact hexChar_mem_hexdigits _ (by omega)

/-- Stripping the dashes of the canonical UUID string recovers exactly the
32 hex characters it was parsed from. -/
theorem uuidFrom32Hex_filter (s : String)
    (hs : ∀ ch ∈ s.toList, (ch != '-') = true) :
    (uuidFrom32Hex s).toList.filter (fun ch => ch != '-') = s.toList := by
  have hsub : ∀ l2 : List Char, l2 ⊆ s.toList →
      l2.filter (fun ch => ch != '-') = l2 := by
    intro l2 hl2
    exact List.filter_eq_self.mpr (fun ch hch => hs ch (hl2 hch))
  have hdashes : (("-" : String)).toList.filter (fun ch => ch != '-') = [] := rfl
  unfold uuidFrom32Hex
  simp only [toList_append, toList_mk, List.filter_append, hdashes]
  rw [hsub _ (List.take_subset _ _),
    hsub _ ((List.take_subset _ _).trans (List.drop_subset _ _)),
    hsub _ ((List.take_subset _ _).trans (List.drop_subset _ _)),
    hsub _ ((List.take_subset _ _).trans (List.drop_subset _ _)),
    hsub _ (List.drop_subset _ _)]
  have h12 : s.toList.take 8 ++ (s.toList.drop 8).take 4 = s.toList.take 12 :=
    (List.take_add s.toList 8 4).symm
  have h16 : s.toList.take 12 ++ (s.toList.drop 12).take 4 = s.toList.take 16 :=
    (List.take_add s.toList 12 4).symm
  have h20 : s.toList.take 16 ++ (s.toList.drop 16).take 4 = s.toList.take 20 :=
    (List.take_add s.toList 16 4).symm
  calc s.toList.take 8 ++ [] ++ (s.toList.drop 8).take 4 ++ [] ++ (s.toList.drop 12).take 4
        ++ [] ++ (s.toList.drop 16).take 4 ++ [] ++ s.toList.drop 20
      = s.toList.take 20 ++ s.toList.drop 20 := by
        simp only [List.append_nil]
        rw [h12, h16, h20]
  _ = s.toList := List.take_append_drop 20 s.toList

set_option maxRecDepth 1000000 in
/-- **C8.** Chunk identity is a pure function: the id is the UUID formed of
the first 32 hex characters of the SHA-1 digest of
`doc_id ++ ":" ++ decimal(chunk_index)` (stripping the UUID's dashes
recovers exactly that truncated digest), `doc_id` is the lowercase-hex
SHA-256 of the source; indexing assigns ids determined only by
`(source, position)` — so re-indexing the same source yields identical ids —
and the purchase-ledger diff and the chunk-range fetch derive the very same
id for a stored chunk; concrete values agree with `hashlib`. -/
theorem chunk_identity_scheme :
    (∀ d i, stable_chunk_uuid d i
        = uuidFrom32Hex (strTake (sha1HexOfString (d ++ ":" ++ toString i)) 32))
    ∧ (∀ s, build_doc_id s = sha256_hex s)
    ∧ (∀ d i, (stable_chunk_uuid d i).toList.filter (fun ch => ch != '-')
        = (sha1HexOfString (d ++ ":" ++ toString i)).toList.take 32)
    ∧ (∀ s, ∀ ch ∈ (build_doc_id s).toList, ch ∈ "0123456789abcdef".toList)
    ∧ (∀ splitText source content p dt dec,
        (intendedIndexRecords splitText source content p dt dec).map Prod.fst
          = (List.range (splitText content).length).map
              (fun i => stable_chunk_uuid (build_doc_id source) i))
    ∧ (∀ ledger user text s dt d i p,
        filter_unpaid_chunks ledger user [⟨text, ⟨s, dt, d, i, p⟩⟩]
          = if ledger.contains (user, stable_chunk_uuid d i)
            then ([], [⟨text, ⟨s, dt, d, i, p⟩⟩])
            else ([⟨text, ⟨s, dt, d, i, p⟩⟩], []))
    ∧ (∀ d i maxR, 1 ≤ maxR →
        get_chunk_range_ids d i (some i) maxR = [stable_chunk_uuid d i])
    ∧ stable_chunk_uuid (build_doc_id "docsrc") 1
        = "9588d415-5cd5-0450-baf8-048c4775bd03"
    ∧ build_doc_id ""
        = "e3b0c44298fc1c149afbf4c8996fb92427ae41e4649b934ca495991b7852b855" := by
  refine ⟨fun d i => rfl, fun s => rfl, ?_, ?_, ?_, ?_, ?_, by decide, by decide⟩
  · intro d i
    have hlt := sha1Bytes_lt (utf8Bytes (d ++ ":" ++ toString i))
    have hhex := bytesToHex_ne_dash _ hlt
    rw [stable_chunk_uuid, uuidFrom32Hex_filter]
    · rfl
    · intro ch hch
      rw [strTake, toList_mk] at hch
      exact hhex ch (List.take_subset _ _ hch)
  · intro s ch hch
    exact bytesToHex_mem_hexdigits _ (sha256Bytes_lt (utf8Bytes s)) ch hch
  · intro splitText source content p dt dec
    unfold intendedIndexRecords
    rw [List.map_map]
    have h1 : (Prod.fst ∘ fun q : Nat × String =>
        (stable_chunk_uuid (build_doc_id source) q.1,
          (⟨q.2, ⟨source, dt, build_doc_id source, q.1,
            chunk_price q.2.length (((splitText content).map String.length).sum)
              (price_base_units p dec)⟩⟩ : Chunk)))
        = (fun q : Nat × String => stable_chunk_uuid (build_doc_id source) q.1) := rfl
    rw [h1, show (fun q : Nat × String => stable_chunk_uuid (build_doc_id source) q.1)
      = (fun i => stable_chunk_uuid (build_doc_id source) i) ∘ Prod.fst from rfl,
      ← List.map_map, List.enum_map_fst]
  · intro ledger user text s dt d i p
    by_cases hmem : (user, stable_chunk_uuid d i) ∈ ledger
    · simp [filter_unpaid_chunks, get_paid_chunk_ids, hmem]
    · simp [filter_unpaid_chunks, get_paid_chunk_ids, hmem]
  · intro d i maxR hmax
    simp only [get_chunk_range_ids, chunkRangeIndices, Option.getD_some]
    rw [if_neg (by omega)]
    have h1 : (((i : Nat) : Int) + 1 - ((i : Nat) : Int)).toNat = 1 := by omega
    rw [h1]
    simp [List.range_succ]

/-- Concrete instance of `chunk_identity_scheme`: the chunk-range fetch of
chunk 3 of document "d5" asks the store for exactly the id the indexer
would have assigned to it. -/
theorem chunk_identity_scheme_witness :
    (1 : Int) ≤ 5
    ∧ get_chunk_range_ids "d5" 3 (some 3) 5 = [stable_chunk_uuid "d5" 3] :=
  ⟨by decide, chunk_identity_scheme.2.2.2.2.2.2.1 "d5" 3 5 (by decide)⟩

end X402Rag
